import Mathlib

/-!
Shallow embedding of `src/main.cpp`: a policy-based Singleton template with
a creation policy (`DefaultCreation`: `new`/`delete`) and a threading model
(`SingleThreaded`: no-op lock; `MultiThreaded`: one `std::mutex` behind a
function-local static).  The per-instantiation static `ptr_`, the `atexit`
registration of `Destroy`, and the heap of live objects are modelled as an
explicit `SlotState`; creation outcomes (success of `new T()`, which may
throw) are modelled by a Boolean oracle indexed by the attempt number.
The mutex machinery and the multi-threaded execution of `Instance` are
modelled separately: mutex identity and lazy construction as a small state
(`MutexWorld`), and concurrent first access as an interleaving transition
system (`Conc.Step`) in which object construction is a distinct step from
publication, so that "partially constructed object" is expressible.
-/

/-- Construction failure signalled by a creation policy (`new T()` throwing). -/
inductive CreationError where
  | constructionError
deriving DecidableEq, Repr

/-- State of one Singleton instantiation's process-wide slot, together with
the bookkeeping needed to state the spec's counting properties:
`ptr_` is the static member `T* Singleton::ptr_` (`none` = `nullptr`);
`live` is the list of heap objects allocated by the creation policy and not
yet deleted (object identities are `Nat`); `createAttempts` counts calls to
`CreationPolicy::Create`, `createSuccesses` the ones that returned;
`destroyCalls` counts calls to `CreationPolicy::Destroy`;
`atexitCount` counts `std::atexit(&Destroy)` registrations;
`nextId` supplies fresh heap identities. -/
structure SlotState where
  ptr_ : Option Nat
  live : List Nat
  createAttempts : Nat
  createSuccesses : Nat
  destroyCalls : Nat
  atexitCount : Nat
  nextId : Nat
deriving DecidableEq, Repr

/-- The slot at static initialization: `T* Singleton<...>::ptr_ = nullptr;`.
Nothing has been created, registered or destroyed. -/
def initSlot : SlotState :=
  { ptr_ := none, live := [], createAttempts := 0, createSuccesses := 0,
    destroyCalls := 0, atexitCount := 0, nextId := 0 }

namespace DefaultCreation

/-- Model of `DefaultCreation<T>::Create`, i.e. `return new T();`: allocate
a fresh heap object and default-construct it.  Construction may fail
(throw), in which case nothing is added to the heap.  `ok` tells whether
this attempt's `new T()` succeeds. -/
def Create (ok : Bool) (live : List Nat) (nextId : Nat) :
    Except CreationError (Nat × List Nat) :=
  if ok then .ok (nextId, nextId :: live)
  else .error .constructionError

/-- Model of `DefaultCreation<T>::Destroy`, i.e. `delete p;`.  `delete` on
a null pointer is a no-op; on a non-null pointer it releases that
allocation. -/
def Destroy (p : Option Nat) (live : List Nat) : List Nat :=
  match p with
  | none => live
  | some x => live.erase x

end DefaultCreation

namespace Singleton

/-- Model of `Singleton::Destroy`:
`CreationPolicy<T>::Destroy(ptr_); ptr_ = nullptr;`.  The policy's
`Destroy` is called unconditionally (also on a null `ptr_`), then the slot
is reset to empty. -/
def Destroy (s : SlotState) : SlotState :=
  { s with live := DefaultCreation.Destroy s.ptr_ s.live,
           destroyCalls := s.destroyCalls + 1,
           ptr_ := none }

/-- Model of `Singleton::Instance` with `DefaultCreation` as the creation
policy.  The guard acquisition
(`typename ThreadingModel::Lock lock(GetMutexIfAny());`) neither reads nor
writes the slot, so it is invisible to this sequential model; it is
modelled separately for the threading claims.  The body is mirrored:
`if (!ptr_) { ptr_ = CreationPolicy<T>::Create(); std::atexit(&Destroy); }
return *ptr_;`, where a throwing `Create` propagates before the `atexit`
line runs.  `createOk` gives the outcome of each `Create` attempt. -/
def Instance (createOk : Nat → Bool) (s : SlotState) :
    Except CreationError Nat × SlotState :=
  match s.ptr_ with
  | some x => (.ok x, s)
  | none =>
    match DefaultCreation.Create (createOk s.createAttempts) s.live s.nextId with
    | .ok (obj, live) =>
        (.ok obj,
         { s with ptr_ := some obj, live := live,
                  createAttempts := s.createAttempts + 1,
                  createSuccesses := s.createSuccesses + 1,
                  atexitCount := s.atexitCount + 1,
                  nextId := s.nextId + 1 })
    | .error e =>
        (.error e, { s with createAttempts := s.createAttempts + 1 })

/-- The slot after `n` calls to `Instance`, starting from static
initialization. -/
def runN (createOk : Nat → Bool) : Nat → SlotState
  | 0 => initSlot
  | n + 1 => (Instance createOk (runN createOk n)).2

/-- The result of the `(i+1)`-st call to `Instance` in that run. -/
def runResult (createOk : Nat → Bool) (i : Nat) : Except CreationError Nat :=
  (Instance createOk (runN createOk i)).1

/-- Normal process exit: the host runs each registered `atexit` callback
once; every registration here is `&Singleton::Destroy`. -/
def processExit (s : SlotState) : SlotState :=
  Singleton.Destroy^[s.atexitCount] s

end Singleton

/-- The default creation policy never fails: `new T()` for a
default-constructible `T` with no simulated exception. -/
def alwaysOk : Nat → Bool := fun _ => true

/-- A creation policy whose first attempt throws and whose later attempts
succeed; used to exercise the retry-after-failure behavior. -/
def failThenOk : Nat → Bool := fun k => decide (0 < k)

/-- Invariant of the slot state maintained by every prefix of a run of
`Instance` calls (before process exit): the `atexit` registrations match
the successful creations, the teardown has not run, and the slot is either
empty with an empty heap or holds the single live object. -/
def RunInv (s : SlotState) : Prop :=
  s.atexitCount = s.createSuccesses ∧ s.destroyCalls = 0 ∧
  (match s.ptr_ with
   | none => s.createSuccesses = 0 ∧ s.live = []
   | some x => s.createSuccesses = 1 ∧ s.live = [x])

/-- The slot state at instant `i` of the whole process lifecycle consisting
of `n` calls to `Instance` followed by the `atexit` handlers run at process
exit: instants `0..n` are the run, later instants step through the
registered teardown callbacks (and stay put once all have run). -/
def lifeState (createOk : Nat → Bool) (n i : Nat) : SlotState :=
  if i ≤ n then Singleton.runN createOk i
  else
    Singleton.Destroy^[min (i - n) (Singleton.runN createOk n).atexitCount]
      (Singleton.runN createOk n)

/-- A slot is either empty, or occupied with exactly one live heap object,
namely the one `ptr_` points to. -/
def EmptyOrOneLive (s : SlotState) : Prop :=
  match s.ptr_ with
  | none => True
  | some x => s.live = [x]

/-- The lifecycle makes an empty-to-occupied transition at instant `i`. -/
def EmptyToOccupied (createOk : Nat → Bool) (n i : Nat) : Prop :=
  (lifeState createOk n i).ptr_ = none ∧ (lifeState createOk n (i + 1)).ptr_ ≠ none

/-- The lifecycle makes an occupied-to-empty transition at instant `i`. -/
def OccupiedToEmpty (createOk : Nat → Bool) (n i : Nat) : Prop :=
  (lifeState createOk n i).ptr_ ≠ none ∧ (lifeState createOk n (i + 1)).ptr_ = none

/-- A world of independent slots, one per Singleton instantiation: in the
source each instantiation `Singleton<T, CP, TM>` owns its own static
`ptr_`, so the world is a map from instantiation identity to slot state. -/
def WorldInstance (createOk : Nat → Bool) (k : Nat) (w : Nat → SlotState) :
    Except CreationError Nat × (Nat → SlotState) :=
  ((Singleton.Instance createOk (w k)).1,
   Function.update w k (Singleton.Instance createOk (w k)).2)

/-- Identity of a `std::mutex` object (its address). -/
abbrev MutexId := Nat

/-- Marker for undefined behavior reached while producing a value. -/
inductive UndefinedBehavior where
  | nullDeref
deriving DecidableEq, Repr

/-- Lifecycle state of the function-local static
`static std::mutex mtx;` inside `MultiThreaded::GetMutex`:
whether it has been constructed yet, and how many times its constructor
has run. -/
structure MutexWorld where
  created : Bool
  constructions : Nat
deriving DecidableEq, Repr

/-- At process start the static mutex is not yet constructed. -/
def initMutexWorld : MutexWorld := { created := false, constructions := 0 }

namespace MultiThreaded

/-- Identity of the single function-local static `std::mutex mtx` in
`MultiThreaded::GetMutex`.  `MultiThreaded` is not a template, so the whole
program contains exactly one such object, whatever managed type uses it. -/
def theMutex : MutexId := 0

/-- Model of `MultiThreaded::GetMutex`:
`static std::mutex mtx; return mtx;` — the static is constructed on the
first call (thread-safe static initialization) and the very same object is
returned by every call thereafter. -/
def GetMutex (w : MutexWorld) : MutexId × MutexWorld :=
  if w.created then (theMutex, w)
  else (theMutex, { created := true, constructions := w.constructions + 1 })

end MultiThreaded

/-- The state of the static mutex after `n` calls to
`MultiThreaded::GetMutex`. -/
def getMutexCalls : Nat → MutexWorld
  | 0 => initMutexWorld
  | n + 1 => (MultiThreaded.GetMutex (getMutexCalls n)).2

/-- The two threading policies of the source. -/
inductive ThreadingModelKind where
  | singleThreaded
  | multiThreaded
deriving DecidableEq, Repr

/-- Dereference of a possibly-null `std::mutex*`: on a null pointer the
dereference is undefined behavior, otherwise it yields the pointee. -/
def derefMutexPtr : Option MutexId → Except UndefinedBehavior MutexId
  | none => .error .nullDeref
  | some m => .ok m

namespace Singleton

/-- Model of `Singleton::GetMutexIfAny` for the instantiation whose managed
type has identity `ty`:
`if constexpr (is_same_v<ThreadingModel, MultiThreaded>) return
ThreadingModel::GetMutex(); else return
*(static_cast<std::mutex*>(nullptr));` — the compile-time branch selects
either the program-wide mutex or the dereference of a null pointer. -/
def GetMutexIfAny (ty : Nat) (tm : ThreadingModelKind) (w : MutexWorld) :
    Except UndefinedBehavior MutexId × MutexWorld :=
  match tm with
  | .multiThreaded =>
      (.ok (MultiThreaded.GetMutex w).1, (MultiThreaded.GetMutex w).2)
  | .singleThreaded => (derefMutexPtr none, w)

end Singleton

namespace SingleThreaded

/-- Model of `SingleThreaded::Lock`: `struct Lock { Lock(...) {} };` — a
guard constructible from any argument, holding no state and doing
nothing. -/
def Lock (arg : Except UndefinedBehavior MutexId) : Unit := ()

end SingleThreaded

namespace Conc

/-- Program counter of one thread executing `Instance` under the locking
policy.  Creation is split into allocation plus construction (`initObj`)
and publication (the store to `ptr_` in `createFinish`), so that a
partially constructed object is representable. -/
inductive Pc where
  | start
  | locked
  | initObj (o : Nat)
  | unlocking (r : Nat)
  | done (r : Nat)
deriving DecidableEq, Repr

/-- Shared state of `N` threads racing on one slot's first access: the
mutex owner, each thread's program counter, the slot's `ptr_`, a
constructed flag per heap object, the number of completed creations, and
the allocator's fresh-identity counter. -/
structure St (N : Nat) where
  mutex : Option (Fin N)
  pcs : Fin N → Pc
  ptr : Option Nat
  ctorDone : Nat → Bool
  createCount : Nat
  nextId : Nat

/-- Initial state: mutex free, all threads before their call, slot empty. -/
def init (N : Nat) : St N :=
  { mutex := none, pcs := fun _ => .start, ptr := none,
    ctorDone := fun _ => false, createCount := 0, nextId := 0 }

/-- Interleaving semantics of concurrent `Instance` calls under
`MultiThreaded`: `acquire` blocks until the mutex is free; under the lock
the thread either finds the slot occupied (`hitCache`) or allocates
(`createAlloc`) and then finishes construction and publishes the object
(`createFinish`, mirroring that `ptr_ = Create()` stores only after `new
T()` has fully constructed); `release` gives the mutex back and the call
returns its reference. -/
inductive Step {N : Nat} : St N → St N → Prop where
  | acquire (s : St N) (t : Fin N) :
      s.mutex = none → s.pcs t = .start →
      Step s { s with mutex := some t, pcs := Function.update s.pcs t .locked }
  | hitCache (s : St N) (t : Fin N) (x : Nat) :
      s.pcs t = .locked → s.ptr = some x →
      Step s { s with pcs := Function.update s.pcs t (.unlocking x) }
  | createAlloc (s : St N) (t : Fin N) :
      s.pcs t = .locked → s.ptr = none →
      Step s { s with pcs := Function.update s.pcs t (.initObj s.nextId),
                      nextId := s.nextId + 1 }
  | createFinish (s : St N) (t : Fin N) (o : Nat) :
      s.pcs t = .initObj o →
      Step s { s with pcs := Function.update s.pcs t (.unlocking o),
                      ptr := some o,
                      ctorDone := fun x => if x = o then true else s.ctorDone x,
                      createCount := s.createCount + 1 }
  | release (s : St N) (t : Fin N) (r : Nat) :
      s.pcs t = .unlocking r →
      Step s { s with mutex := none, pcs := Function.update s.pcs t (.done r) }

/-- States reachable from the initial state by interleaved steps. -/
def Reachable {N : Nat} (s : St N) : Prop :=
  Relation.ReflTransGen Step (init N) s

/-- A thread is inside the critical section, i.e. holds the guard. -/
def inCS : Pc → Prop
  | .locked => True
  | .initObj _ => True
  | .unlocking _ => True
  | .start => False
  | .done _ => False

/-- Inductive invariant of the race: only the mutex holder is in the
critical section, the published pointer only ever designates a fully
constructed object, a thread mid-construction implies the slot is still
unpublished, every unlocking or finished thread's result is the published
object, and the creation counter matches occupancy. -/
structure Inv {N : Nat} (s : St N) : Prop where
  holder : ∀ t, inCS (s.pcs t) → s.mutex = some t
  ctorOfPtr : ∀ x, s.ptr = some x → s.ctorDone x = true
  initingEmpty : ∀ t o, s.pcs t = .initObj o → s.ptr = none
  unlockPtr : ∀ t r, s.pcs t = .unlocking r → s.ptr = some r
  donePtr : ∀ t r, s.pcs t = .done r → s.ptr = some r
  countPtr : s.createCount = if s.ptr.isSome then 1 else 0

end Conc

/-- A one-thread execution of the race, spelled out state by state: the
thread acquires the mutex, allocates object 0, finishes constructing and
publishes it, and releases the mutex. -/
def concS1 : Conc.St 1 :=
  { Conc.init 1 with
    mutex := some 0,
    pcs := Function.update (Conc.init 1).pcs 0 Conc.Pc.locked }

/-- State after the allocation step of the one-thread execution. -/
def concS2 : Conc.St 1 :=
  { concS1 with
    pcs := Function.update concS1.pcs 0 (.initObj concS1.nextId),
    nextId := concS1.nextId + 1 }

/-- State after construction finishes and the object is published. -/
def concS3 : Conc.St 1 :=
  { concS2 with
    pcs := Function.update concS2.pcs 0 (.unlocking 0),
    ptr := some 0,
    ctorDone := fun x => if x = 0 then true else concS2.ctorDone x,
    createCount := concS2.createCount + 1 }

/-- Final state of the one-thread execution: mutex free, thread finished. -/
def concFinal : Conc.St 1 :=
  { concS3 with mutex := none, pcs := Function.update concS3.pcs 0 (.done 0) }

section SequentialTheorems

open Singleton

/-- Once the slot is occupied, `Instance` returns the cached pointer and
leaves the whole slot state unchanged. -/
theorem Instance_occupied (createOk : Nat → Bool) (s : SlotState) (x : Nat)
    (h : s.ptr_ = some x) : Instance createOk s = (.ok x, s) := by
  simp [Instance, h]

/-- Occupancy is stable across `Instance`: the stored pointer never changes. -/
theorem Instance_ptr_mono (createOk : Nat → Bool) (s : SlotState) (x : Nat)
    (h : s.ptr_ = some x) : (Instance createOk s).2.ptr_ = some x := by
  rw [Instance_occupied createOk s x h]
  exact h

/-- Occupancy is stable along a run: if the slot holds `x` after `i` calls,
it still holds `x` after any `j ≥ i` calls. -/
theorem runN_ptr_mono (createOk : Nat → Bool) (i j : Nat) (hij : i ≤ j)
    (x : Nat) (h : (runN createOk i).ptr_ = some x) :
    (runN createOk j).ptr_ = some x := by
  induction j with
  | zero => exact Nat.le_zero.mp hij ▸ h
  | succ j ih =>
    rcases Nat.lt_or_ge i (j + 1) with hlt | hge
    · have hj : (runN createOk j).ptr_ = some x := ih (Nat.lt_succ_iff.mp hlt)
      show (Instance createOk (runN createOk j)).2.ptr_ = some x
      exact Instance_ptr_mono createOk _ x hj
    · have : i = j + 1 := Nat.le_antisymm hij hge
      exact this ▸ h

/-- On an empty slot whose creation attempt fails, `Instance` reports the
construction error and only the attempt counter moves. -/
theorem Instance_empty_fail (createOk : Nat → Bool) (s : SlotState)
    (hp : s.ptr_ = none) (hok : createOk s.createAttempts = false) :
    Instance createOk s =
      (.error .constructionError,
       { s with createAttempts := s.createAttempts + 1 }) := by
  unfold Instance
  rw [hp, hok]
  rfl

/-- On an empty slot whose creation attempt succeeds, `Instance` allocates
the fresh object, stores it, and registers the teardown callback. -/
theorem Instance_empty_ok (createOk : Nat → Bool) (s : SlotState)
    (hp : s.ptr_ = none) (hok : createOk s.createAttempts = true) :
    Instance createOk s =
      (.ok s.nextId,
       { s with ptr_ := some s.nextId, live := s.nextId :: s.live,
                createAttempts := s.createAttempts + 1,
                createSuccesses := s.createSuccesses + 1,
                atexitCount := s.atexitCount + 1,
                nextId := s.nextId + 1 }) := by
  unfold Instance
  rw [hp, hok]
  rfl

/-- The run invariant holds at static initialization. -/
theorem runInv_init : RunInv initSlot :=
  ⟨rfl, rfl, rfl, rfl⟩

/-- The run invariant is preserved by each call to `Instance`. -/
theorem runInv_step (createOk : Nat → Bool) (s : SlotState) (h : RunInv s) :
    RunInv (Instance createOk s).2 := by
  obtain ⟨ha, hd, hm⟩ := h
  cases hp : s.ptr_ with
  | some x =>
    rw [Instance_occupied createOk s x hp]
    exact ⟨ha, hd, hm⟩
  | none =>
    rw [hp] at hm
    obtain ⟨hs, hl⟩ := hm
    cases hok : createOk s.createAttempts with
    | false =>
      rw [Instance_empty_fail createOk s hp hok]
      refine ⟨ha, hd, ?_⟩
      show (match s.ptr_ with
            | none => s.createSuccesses = 0 ∧ s.live = []
            | some x => s.createSuccesses = 1 ∧ s.live = [x])
      rw [hp]
      exact ⟨hs, hl⟩
    | true =>
      rw [Instance_empty_ok createOk s hp hok]
      exact ⟨by simp [ha], hd, by simp [hs, hl]⟩

/-- The run invariant holds after any number of `Instance` calls. -/
theorem runInv_runN (createOk : Nat → Bool) (n : Nat) :
    RunInv (runN createOk n) := by
  induction n with
  | zero => exact runInv_init
  | succ n ih => exact runInv_step createOk _ ih

/-- A successful `Instance` result is exactly what the slot holds right
after that call. -/
theorem runResult_ok_ptr (createOk : Nat → Bool) (i x : Nat)
    (h : runResult createOk i = .ok x) :
    (runN createOk (i + 1)).ptr_ = some x := by
  unfold runResult at h
  show (Instance createOk (runN createOk i)).2.ptr_ = some x
  cases hp : (runN createOk i).ptr_ with
  | some y =>
    rw [Instance_occupied createOk _ y hp] at h ⊢
    cases h
    exact hp
  | none =>
    cases hok : createOk (runN createOk i).createAttempts with
    | false =>
      rw [Instance_empty_fail createOk _ hp hok] at h
      exact absurd h (by simp)
    | true =>
      rw [Instance_empty_ok createOk _ hp hok] at h ⊢
      cases h
      rfl

/-- Claim C1 (single-instance property): any two calls to `Instance` on the
same slot within one process lifetime, before teardown, that return at all
return the identity of the same underlying object. -/
theorem singleton_same_identity (createOk : Nat → Bool) (i j ri rj : Nat)
    (hi : Singleton.runResult createOk i = .ok ri)
    (hj : Singleton.runResult createOk j = .ok rj) : ri = rj := by
  have Pi := runResult_ok_ptr createOk i ri hi
  have Pj := runResult_ok_ptr createOk j rj hj
  rcases Nat.le_total i j with hle | hle
  · have := runN_ptr_mono createOk (i + 1) (j + 1) (Nat.succ_le_succ hle) ri Pi
    rw [Pj] at this
    exact (Option.some_injective _ this).symm
  · have := runN_ptr_mono createOk (j + 1) (i + 1) (Nat.succ_le_succ hle) rj Pj
    rw [Pi] at this
    exact Option.some_injective _ this

/-- Witness for C1: with the default creation policy, the first and the
fourth call both return object `0`, and the theorem applies. -/
theorem singleton_same_identity_witness :
    Singleton.runResult alwaysOk 0 = .ok 0 ∧
    Singleton.runResult alwaysOk 3 = .ok 0 ∧ (0 : Nat) = 0 :=
  ⟨rfl, rfl, singleton_same_identity alwaysOk 0 3 0 0 rfl rfl⟩

/-- With the never-failing default creation policy, one call fills the slot
and every later call leaves it in the same fully determined state. -/
theorem runN_alwaysOk_eq (n : Nat) (hn : 1 ≤ n) :
    runN alwaysOk n =
      { ptr_ := some 0, live := [0], createAttempts := 1, createSuccesses := 1,
        destroyCalls := 0, atexitCount := 1, nextId := 1 } := by
  induction n with
  | zero => exact absurd hn (by decide)
  | succ n ih =>
    rcases Nat.eq_or_lt_of_le hn with h1 | h1
    · cases h1
      decide
    · have hn' : 1 ≤ n := Nat.lt_succ_iff.mp h1
      have := ih hn'
      show (Instance alwaysOk (runN alwaysOk n)).2 = _
      rw [this, Instance_occupied alwaysOk _ 0 rfl]

/-- `Destroy` never calls the creation policy's `Create`. -/
theorem destroy_createAttempts (s : SlotState) :
    (Destroy s).createAttempts = s.createAttempts := rfl

/-- Running the exit handlers never calls the creation policy's `Create`. -/
theorem iterate_destroy_createAttempts (k : Nat) (s : SlotState) :
    (Destroy^[k] s).createAttempts = s.createAttempts := by
  induction k with
  | zero => rfl
  | succ k ih =>
    rw [Function.iterate_succ_apply']
    rw [destroy_createAttempts]
    exact ih

/-- Claim C2 (lazy creation): nothing is created at process start; the
first `Instance` call creates; over the whole lifetime (run plus process
exit) `Create` is invoked exactly once; and every call on an occupied slot
skips creation, returning the cached reference with the slot state fully
unchanged. -/
theorem lazy_creation (n : Nat) (hn : 1 ≤ n) :
    initSlot.createAttempts = 0 ∧
    (Singleton.runN alwaysOk 1).createSuccesses = 1 ∧
    (Singleton.runN alwaysOk n).createAttempts = 1 ∧
    (Singleton.processExit (Singleton.runN alwaysOk n)).createAttempts = 1 ∧
    (∀ s x, s.ptr_ = some x →
      Singleton.Instance alwaysOk s = (.ok x, s)) := by
  refine ⟨rfl, by decide, ?_, ?_, fun s x h => Instance_occupied alwaysOk s x h⟩
  · rw [runN_alwaysOk_eq n hn]
  · show (Destroy^[(runN alwaysOk n).atexitCount] (runN alwaysOk n)).createAttempts = 1
    rw [iterate_destroy_createAttempts]
    rw [runN_alwaysOk_eq n hn]

/-- Witness for C2: the lazy-creation theorem applied to a lifetime of two
calls, and the cached path taken by the second call concretely. -/
theorem lazy_creation_witness :
    (Singleton.runN alwaysOk 2).createAttempts = 1 ∧
    (Singleton.processExit (Singleton.runN alwaysOk 2)).createAttempts = 1 ∧
    Singleton.Instance alwaysOk (Singleton.runN alwaysOk 1) =
      (.ok 0, Singleton.runN alwaysOk 1) :=
  ⟨(lazy_creation 2 (by decide)).2.2.1,
   (lazy_creation 2 (by decide)).2.2.2.1,
   (lazy_creation 2 (by decide)).2.2.2.2 (Singleton.runN alwaysOk 1) 0 (by decide)⟩

/-- Claim C3 (failure semantics and retry): a failing `Create` surfaces the
error to that caller, stores no occupant, leaks nothing, registers no
teardown, and a later call attempts creation again (and succeeds as soon
as the policy does). -/
theorem creation_failure_retry (createOk : Nat → Bool) (s : SlotState)
    (h : s.ptr_ = none) (hf : createOk s.createAttempts = false) :
    (Singleton.Instance createOk s).1 = .error .constructionError ∧
    (Singleton.Instance createOk s).2.ptr_ = none ∧
    (Singleton.Instance createOk s).2.atexitCount = s.atexitCount ∧
    (Singleton.Instance createOk s).2.live = s.live ∧
    (Singleton.Instance createOk s).2.createAttempts = s.createAttempts + 1 ∧
    (createOk (s.createAttempts + 1) = true →
      (Singleton.Instance createOk (Singleton.Instance createOk s).2).1 =
        .ok s.nextId) := by
  rw [Instance_empty_fail createOk s h hf]
  refine ⟨rfl, h, rfl, rfl, rfl, fun hretry => ?_⟩
  rw [Instance_empty_ok createOk
        { s with createAttempts := s.createAttempts + 1 } h hretry]

/-- Witness for C3: a policy that throws on its first attempt and then
succeeds, run on the freshly initialized slot. -/
theorem creation_failure_retry_witness :
    initSlot.ptr_ = none ∧
    failThenOk initSlot.createAttempts = false ∧
    (Singleton.Instance failThenOk initSlot).1 = .error .constructionError ∧
    (Singleton.Instance failThenOk (Singleton.Instance failThenOk initSlot).2).1 =
      .ok 0 := by
  refine ⟨rfl, by decide, (creation_failure_retry failThenOk initSlot rfl (by decide)).1, ?_⟩
  exact (creation_failure_retry failThenOk initSlot rfl (by decide)).2.2.2.2.2 (by decide)

/-- Claim C4 (teardown): for a slot that was ever occupied, the creation
policy's `Destroy` has not run during the calls themselves, runs exactly
once during process exit via the registered callback, and afterwards the
slot is empty with no live object left. -/
theorem teardown_exactly_once (createOk : Nat → Bool) (n : Nat)
    (h : 0 < (Singleton.runN createOk n).createSuccesses) :
    (Singleton.runN createOk n).destroyCalls = 0 ∧
    (Singleton.processExit (Singleton.runN createOk n)).destroyCalls = 1 ∧
    (Singleton.processExit (Singleton.runN createOk n)).ptr_ = none ∧
    (Singleton.processExit (Singleton.runN createOk n)).live = [] := by
  obtain ⟨ha, hd, hm⟩ := runInv_runN createOk n
  cases hp : (runN createOk n).ptr_ with
  | none =>
    rw [hp] at hm
    rw [hm.1] at h
    exact absurd h (by decide)
  | some x =>
    rw [hp] at hm
    obtain ⟨hs, hl⟩ := hm
    have hae : (runN createOk n).atexitCount = 1 := ha.trans hs
    have hexit : Singleton.processExit (runN createOk n) = Destroy (runN createOk n) := by
      show Destroy^[(runN createOk n).atexitCount] (runN createOk n) = _
      rw [hae, Function.iterate_one]
    rw [hexit]
    refine ⟨hd, by simp [Destroy, hd], rfl, ?_⟩
    show DefaultCreation.Destroy (runN createOk n).ptr_ (runN createOk n).live = []
    rw [hp, hl]
    simp [DefaultCreation.Destroy]

/-- Witness for C4: one call with the default policy, then process exit. -/
theorem teardown_exactly_once_witness :
    0 < (Singleton.runN alwaysOk 1).createSuccesses ∧
    (Singleton.processExit (Singleton.runN alwaysOk 1)).destroyCalls = 1 ∧
    (Singleton.processExit (Singleton.runN alwaysOk 1)).ptr_ = none :=
  ⟨by decide, (teardown_exactly_once alwaysOk 1 (by decide)).2.1,
   (teardown_exactly_once alwaysOk 1 (by decide)).2.2.1⟩

/-- Claim C10 (empty teardown is safe): the default policy's `Destroy` on
the null handle releases nothing, and running the slot teardown on an
empty slot keeps the heap intact and leaves the slot empty. -/
theorem destroy_empty_safe (s : SlotState) (h : s.ptr_ = none) :
    (∀ l, DefaultCreation.Destroy none l = l) ∧
    (Singleton.Destroy s).live = s.live ∧
    (Singleton.Destroy s).ptr_ = none := by
  refine ⟨fun l => rfl, ?_, rfl⟩
  show DefaultCreation.Destroy s.ptr_ s.live = s.live
  rw [h]
  rfl

/-- Witness for C10: teardown of the never-used slot. -/
theorem destroy_empty_safe_witness :
    initSlot.ptr_ = none ∧
    (Singleton.Destroy initSlot).live = initSlot.live ∧
    (Singleton.Destroy initSlot).ptr_ = none :=
  ⟨rfl, (destroy_empty_safe initSlot rfl).2.1, (destroy_empty_safe initSlot rfl).2.2⟩

/-- The slot teardown always leaves `ptr_` null. -/
theorem iterate_destroy_ptr (k : Nat) (hk : 1 ≤ k) (s : SlotState) :
    (Destroy^[k] s).ptr_ = none := by
  obtain ⟨m, rfl⟩ : ∃ m, k = m + 1 := ⟨k - 1, by omega⟩
  rw [Function.iterate_succ_apply']
  rfl

/-- A slot with no `atexit` registration was never occupied. -/
theorem runN_atexit_zero_ptr (createOk : Nat → Bool) (n : Nat)
    (h : (runN createOk n).atexitCount = 0) : (runN createOk n).ptr_ = none := by
  obtain ⟨ha, _, hm⟩ := runInv_runN createOk n
  cases hp : (runN createOk n).ptr_ with
  | none => rfl
  | some x =>
    rw [hp] at hm
    have : (runN createOk n).atexitCount = 1 := ha.trans hm.1
    omega

/-- During the run phase the lifecycle state is just the run state. -/
theorem lifeState_of_le (createOk : Nat → Bool) (n i : Nat) (h : i ≤ n) :
    lifeState createOk n i = runN createOk i := if_pos h

/-- Strictly after the run the slot is empty: either no teardown was
registered (and the slot was never occupied) or the teardown has nulled
`ptr_`. -/
theorem lifeState_exit_ptr (createOk : Nat → Bool) (n i : Nat) (h : n < i) :
    (lifeState createOk n i).ptr_ = none := by
  unfold lifeState
  rw [if_neg (Nat.not_le.mpr h)]
  rcases Nat.eq_zero_or_pos (Singleton.runN createOk n).atexitCount with hA | hA
  · rw [hA]
    simp only [Nat.min_zero, Function.iterate_zero, id]
    exact runN_atexit_zero_ptr createOk n hA
  · exact iterate_destroy_ptr _ (le_min (by omega) hA) _

/-- An occupied lifecycle instant lies in the run phase. -/
theorem lifeState_occ_le (createOk : Nat → Bool) (n i : Nat)
    (h : (lifeState createOk n i).ptr_ ≠ none) : i ≤ n := by
  by_contra hc
  exact h (lifeState_exit_ptr createOk n i (Nat.lt_of_not_le hc))

/-- An occupied-to-empty transition can only happen at the teardown instant. -/
theorem occupiedToEmpty_eq_n (createOk : Nat → Bool) (n i : Nat)
    (h : OccupiedToEmpty createOk n i) : i = n := by
  obtain ⟨hocc, hemp⟩ := h
  have hin : i ≤ n := lifeState_occ_le createOk n i hocc
  rcases Nat.eq_or_lt_of_le hin with he | hlt
  · exact he
  · exfalso
    obtain ⟨x, hx⟩ := Option.ne_none_iff_exists'.mp hocc
    rw [lifeState_of_le createOk n i hin] at hx
    have := runN_ptr_mono createOk i (i + 1) (Nat.le_succ i) x hx
    rw [← lifeState_of_le createOk n (i + 1) hlt] at this
    rw [hemp] at this
    cases this

/-- Claim C5 (slot state machine): at every instant of the lifecycle the
slot is empty or holds exactly one live object; the empty-to-occupied
transition happens at most once, the occupied-to-empty transition happens
at most once, and the latter only at process-exit teardown. -/
theorem slot_state_machine (createOk : Nat → Bool) (n : Nat) :
    (∀ i, EmptyOrOneLive (lifeState createOk n i)) ∧
    (∀ i j, EmptyToOccupied createOk n i → EmptyToOccupied createOk n j → i = j) ∧
    (∀ i j, OccupiedToEmpty createOk n i → OccupiedToEmpty createOk n j → i = j) ∧
    (∀ i, OccupiedToEmpty createOk n i → n ≤ i) := by
  refine ⟨?_, ?_, ?_, ?_⟩
  · intro i
    rcases le_or_lt i n with hle | hlt
    · rw [lifeState_of_le createOk n i hle]
      obtain ⟨_, _, hm⟩ := runInv_runN createOk i
      unfold EmptyOrOneLive
      cases hp : (runN createOk i).ptr_ with
      | none => trivial
      | some x =>
        rw [hp] at hm
        exact hm.2
    · unfold EmptyOrOneLive
      rw [lifeState_exit_ptr createOk n i hlt]
      trivial
  · intro i j hi hj
    obtain ⟨hie, hio⟩ := hi
    obtain ⟨hje, hjo⟩ := hj
    have hi1 : i + 1 ≤ n := lifeState_occ_le createOk n (i + 1) hio
    have hj1 : j + 1 ≤ n := lifeState_occ_le createOk n (j + 1) hjo
    rcases Nat.lt_trichotomy i j with hlt | he | hlt
    · exfalso
      obtain ⟨x, hx⟩ := Option.ne_none_iff_exists'.mp hio
      rw [lifeState_of_le createOk n (i + 1) hi1] at hx
      have := runN_ptr_mono createOk (i + 1) j hlt x hx
      rw [← lifeState_of_le createOk n j (Nat.le_of_succ_le hj1)] at this
      rw [hje] at this
      cases this
    · exact he
    · exfalso
      obtain ⟨x, hx⟩ := Option.ne_none_iff_exists'.mp hjo
      rw [lifeState_of_le createOk n (j + 1) hj1] at hx
      have := runN_ptr_mono createOk (j + 1) i hlt x hx
      rw [← lifeState_of_le createOk n i (Nat.le_of_succ_le hi1)] at this
      rw [hie] at this
      cases this
  · intro i j hi hj
    rw [occupiedToEmpty_eq_n createOk n i hi, occupiedToEmpty_eq_n createOk n j hj]
  · intro i hi
    exact (occupiedToEmpty_eq_n createOk n i hi).ge

/-- Witness for C5: a lifetime of two calls under the default policy; the
creation transition is at instant 0, the teardown transition at instant 2,
and the theorem pins both down. -/
theorem slot_state_machine_witness :
    EmptyToOccupied alwaysOk 2 0 ∧ OccupiedToEmpty alwaysOk 2 2 ∧
    EmptyOrOneLive (lifeState alwaysOk 2 1) ∧ (0 : Nat) = 0 ∧ (2 : Nat) ≤ 2 := by
  have h0 : EmptyToOccupied alwaysOk 2 0 := ⟨by decide, by decide⟩
  have h2 : OccupiedToEmpty alwaysOk 2 2 := ⟨by decide, by decide⟩
  exact ⟨h0, h2, (slot_state_machine alwaysOk 2).1 1,
         (slot_state_machine alwaysOk 2).2.1 0 0 h0 h0,
         (slot_state_machine alwaysOk 2).2.2.2 2 h2⟩

/-- Claim C7 (slot independence): calling `Instance` on one instantiation's
slot leaves every other instantiation's slot untouched; in particular it
performs no creation attempt there. -/
theorem slot_independence (createOk : Nat → Bool) (k j : Nat)
    (w : Nat → SlotState) (h : j ≠ k) :
    (WorldInstance createOk k w).2 j = w j ∧
    ((WorldInstance createOk k w).2 j).createAttempts = (w j).createAttempts := by
  have he : (WorldInstance createOk k w).2 j = w j :=
    Function.update_noteq h _ w
  exact ⟨he, by rw [he]⟩

/-- Witness for C7: creating instantiation 1's object leaves instantiation
0's slot at its initial state, with zero creation attempts. -/
theorem slot_independence_witness :
    (WorldInstance alwaysOk 1 (fun _ => initSlot)).2 0 = initSlot ∧
    ((WorldInstance alwaysOk 1 (fun _ => initSlot)).2 0).createAttempts = 0 := by
  have h := slot_independence alwaysOk 1 0 (fun _ => initSlot) (by decide)
  exact ⟨h.1, h.2⟩

end SequentialTheorems

section MutexTheorems

/-- Counterexample to C6 as stated: instantiations 0 and 1 are distinct
slots, yet under `MultiThreaded` both are handed the very same mutex —
`MultiThreaded::GetMutex` is not a template member, so the synchronization
primitive is per process, not per slot. -/
theorem mutex_not_per_slot :
    (0 : Nat) ≠ 1 ∧
    (Singleton.GetMutexIfAny 0 .multiThreaded initMutexWorld).1 =
      (Singleton.GetMutexIfAny 1 .multiThreaded initMutexWorld).1 :=
  ⟨by decide, rfl⟩

/-- The function-local static mutex after `n` accesses: untouched before
the first call, constructed (once) from then on. -/
theorem getMutexCalls_eq (n : Nat) :
    getMutexCalls n =
      if n = 0 then initMutexWorld
      else { created := true, constructions := 1 } := by
  induction n with
  | zero => rfl
  | succ n ih =>
    show (MultiThreaded.GetMutex (getMutexCalls n)).2 = _
    rw [ih]
    cases n <;> rfl

/-- Claim C6 amended: under `MultiThreaded`, the mutex the guard blocks on
is lazily constructed exactly once per process — on the first use, never
at process start — it stays alive from then on (nothing destroys it before
process exit), and every instantiation's `GetMutexIfAny` hands back that
same program-wide mutex, in whatever construction state it is. -/
theorem mutex_lazy_once_per_process (n ty : Nat) (w : MutexWorld) :
    (getMutexCalls 0).constructions = 0 ∧
    (getMutexCalls n).constructions = min n 1 ∧
    ((getMutexCalls n).created = true ↔ 1 ≤ n) ∧
    (Singleton.GetMutexIfAny ty .multiThreaded w).1 =
      .ok MultiThreaded.theMutex := by
  refine ⟨rfl, ?_, ?_, ?_⟩
  · rw [getMutexCalls_eq n]
    cases n with
    | zero => rfl
    | succ m =>
      simp only [Nat.succ_ne_zero, if_false]
      show 1 = min (m + 1) 1
      omega
  · rw [getMutexCalls_eq n]
    cases n with
    | zero => simp [initMutexWorld]
    | succ m => simp
  · show (Except.ok (MultiThreaded.GetMutex w).1 : Except UndefinedBehavior MutexId) = _
    unfold MultiThreaded.GetMutex
    cases hc : w.created <;> rfl

/-- Counterexample to C8 as stated: on the `SingleThreaded` path the value
handed to the no-op guard is produced by dereferencing a null
`std::mutex*`, so producing the guard's argument does invoke undefined
behavior. -/
theorem singleThreaded_arg_is_null_deref :
    (Singleton.GetMutexIfAny 0 .singleThreaded initMutexWorld).1 =
      .error .nullDeref := rfl

/-- Claim C8 amended: under `SingleThreaded` the guard accepts and ignores
any argument — its construction is a stateless no-op and it touches no
synchronization state — but the expression producing the guard's argument
dereferences a null mutex pointer, which is undefined behavior (the
latent defect the spec's design notes flag). -/
theorem singleThreaded_noop_guard (a b : Except UndefinedBehavior MutexId)
    (ty : Nat) (w : MutexWorld) :
    SingleThreaded.Lock a = SingleThreaded.Lock b ∧
    (Singleton.GetMutexIfAny ty .singleThreaded w).2 = w ∧
    (Singleton.GetMutexIfAny ty .singleThreaded w).1 = .error .nullDeref ∧
    derefMutexPtr none = .error .nullDeref :=
  ⟨rfl, rfl, rfl, rfl⟩

end MutexTheorems

section ConcurrencyTheorems

/-- The invariant holds initially. -/
theorem conc_inv_init (N : Nat) : Conc.Inv (Conc.init N) := by
  refine ⟨?_, ?_, ?_, ?_, ?_, rfl⟩
  · intro t h
    simp [Conc.init, Conc.inCS] at h
  · intro x h
    simp [Conc.init] at h
  · intro t o h
    simp [Conc.init] at h
  · intro t r h
    simp [Conc.init] at h
  · intro t r h
    simp [Conc.init] at h

/-- The invariant is preserved by every interleaved step. -/
theorem conc_inv_step {N : Nat} {s s2 : Conc.St N} (h : Conc.Inv s)
    (hs : Conc.Step s s2) : Conc.Inv s2 := by
  cases hs with
  | acquire t hm hpc =>
    refine ⟨?_, h.ctorOfPtr, ?_, ?_, ?_, h.countPtr⟩
    · intro u hu
      rcases eq_or_ne u t with rfl | hne
      · rfl
      · simp only [Function.update_noteq hne] at hu
        have := h.holder u hu
        rw [hm] at this
        cases this
    · intro u o hu
      rcases eq_or_ne u t with rfl | hne
      · simp only [Function.update_same] at hu
        cases hu
      · simp only [Function.update_noteq hne] at hu
        exact h.initingEmpty u o hu
    · intro u r hu
      rcases eq_or_ne u t with rfl | hne
      · simp only [Function.update_same] at hu
        cases hu
      · simp only [Function.update_noteq hne] at hu
        exact h.unlockPtr u r hu
    · intro u r hu
      rcases eq_or_ne u t with rfl | hne
      · simp only [Function.update_same] at hu
        cases hu
      · simp only [Function.update_noteq hne] at hu
        exact h.donePtr u r hu
  | hitCache t x hpc hx =>
    refine ⟨?_, h.ctorOfPtr, ?_, ?_, ?_, h.countPtr⟩
    · intro u hu
      rcases eq_or_ne u t with rfl | hne
      · exact h.holder u (by rw [hpc]; trivial)
      · simp only [Function.update_noteq hne] at hu
        exact h.holder u hu
    · intro u o hu
      rcases eq_or_ne u t with rfl | hne
      · simp only [Function.update_same] at hu
        cases hu
      · simp only [Function.update_noteq hne] at hu
        exact h.initingEmpty u o hu
    · intro u r hu
      rcases eq_or_ne u t with rfl | hne
      · simp only [Function.update_same] at hu
        cases hu
        exact hx
      · simp only [Function.update_noteq hne] at hu
        exact h.unlockPtr u r hu
    · intro u r hu
      rcases eq_or_ne u t with rfl | hne
      · simp only [Function.update_same] at hu
        cases hu
      · simp only [Function.update_noteq hne] at hu
        exact h.donePtr u r hu
  | createAlloc t hpc hnone =>
    refine ⟨?_, h.ctorOfPtr, ?_, ?_, ?_, h.countPtr⟩
    · intro u hu
      rcases eq_or_ne u t with rfl | hne
      · exact h.holder u (by rw [hpc]; trivial)
      · simp only [Function.update_noteq hne] at hu
        exact h.holder u hu
    · intro u o hu
      exact hnone
    · intro u r hu
      rcases eq_or_ne u t with rfl | hne
      · simp only [Function.update_same] at hu
        cases hu
      · simp only [Function.update_noteq hne] at hu
        exact h.unlockPtr u r hu
    · intro u r hu
      rcases eq_or_ne u t with rfl | hne
      · simp only [Function.update_same] at hu
        cases hu
      · simp only [Function.update_noteq hne] at hu
        exact h.donePtr u r hu
  | createFinish t o hpc =>
    have hnone : s.ptr = none := h.initingEmpty t o hpc
    refine ⟨?_, ?_, ?_, ?_, ?_, ?_⟩
    · intro u hu
      rcases eq_or_ne u t with rfl | hne
      · exact h.holder u (by rw [hpc]; trivial)
      · simp only [Function.update_noteq hne] at hu
        exact h.holder u hu
    · intro x hx
      cases hx
      simp
    · intro u o' hu
      rcases eq_or_ne u t with rfl | hne
      · simp only [Function.update_same] at hu
        cases hu
      · simp only [Function.update_noteq hne] at hu
        have h1 := h.holder u (by rw [hu]; trivial)
        have h2 := h.holder t (by rw [hpc]; trivial)
        rw [h2] at h1
        injection h1 with he
        exact absurd he.symm hne
    · intro u r hu
      rcases eq_or_ne u t with rfl | hne
      · simp only [Function.update_same] at hu
        cases hu
        rfl
      · simp only [Function.update_noteq hne] at hu
        have := h.unlockPtr u r hu
        rw [hnone] at this
        cases this
    · intro u r hu
      rcases eq_or_ne u t with rfl | hne
      · simp only [Function.update_same] at hu
        cases hu
      · simp only [Function.update_noteq hne] at hu
        have := h.donePtr u r hu
        rw [hnone] at this
        cases this
    · have hc := h.countPtr
      rw [hnone] at hc
      simp only [Option.isSome_none, Bool.false_eq_true, if_false] at hc
      show s.createCount + 1 = if (some o).isSome then 1 else 0
      rw [hc]
      rfl
  | release t r hpc =>
    refine ⟨?_, h.ctorOfPtr, ?_, ?_, ?_, h.countPtr⟩
    · intro u hu
      rcases eq_or_ne u t with rfl | hne
      · simp only [Function.update_same] at hu
        simp [Conc.inCS] at hu
      · simp only [Function.update_noteq hne] at hu
        have h1 := h.holder u hu
        have h2 := h.holder t (by rw [hpc]; trivial)
        rw [h2] at h1
        injection h1 with he
        exact absurd he.symm hne
    · intro u o hu
      rcases eq_or_ne u t with rfl | hne
      · simp only [Function.update_same] at hu
        cases hu
      · simp only [Function.update_noteq hne] at hu
        exact h.initingEmpty u o hu
    · intro u r' hu
      rcases eq_or_ne u t with rfl | hne
      · simp only [Function.update_same] at hu
        cases hu
      · simp only [Function.update_noteq hne] at hu
        exact h.unlockPtr u r' hu
    · intro u r' hu
      rcases eq_or_ne u t with rfl | hne
      · simp only [Function.update_same] at hu
        cases hu
        exact h.unlockPtr u r hpc
      · simp only [Function.update_noteq hne] at hu
        exact h.donePtr u r' hu

/-- Every reachable state of the race satisfies the invariant. -/
theorem conc_reachable_inv {N : Nat} {s : Conc.St N} (h : Conc.Reachable s) :
    Conc.Inv s := by
  induction h with
  | refl => exact conc_inv_init N
  | tail _ hstep ih => exact conc_inv_step ih hstep

/-- Claim C9 (mutual exclusion of first access): in every reachable state
of `N` threads racing on a slot's first access under the locking policy, at
most one creation has completed; at most one thread is ever inside the
guarded section; the published pointer — hence anything any thread reads
through it — designates a fully constructed object; all finished threads
agree on the object; a finished thread means the single creation happened;
and when all `N ≥ 1` threads have finished, exactly one creation
succeeded. -/
theorem locked_first_access_race {N : Nat} (s : Conc.St N)
    (h : Conc.Reachable s) :
    s.createCount ≤ 1 ∧
    (∀ t u, Conc.inCS (s.pcs t) → Conc.inCS (s.pcs u) → t = u) ∧
    (∀ x, s.ptr = some x → s.ctorDone x = true) ∧
    (∀ t r, s.pcs t = .done r → s.ctorDone r = true) ∧
    (∀ t u r r', s.pcs t = .done r → s.pcs u = .done r' → r = r') ∧
    (∀ t r, s.pcs t = .done r → s.createCount = 1) ∧
    (0 < N → (∀ t, ∃ r, s.pcs t = .done r) → s.createCount = 1) := by
  have inv := conc_reachable_inv h
  refine ⟨?_, ?_, inv.ctorOfPtr, ?_, ?_, ?_, ?_⟩
  · rw [inv.countPtr]
    cases s.ptr <;> simp
  · intro t u ht hu
    have h1 := inv.holder t ht
    have h2 := inv.holder u hu
    rw [h1] at h2
    injection h2
  · intro t r hd
    exact inv.ctorOfPtr r (inv.donePtr t r hd)
  · intro t u r r' ht hu
    have p1 := inv.donePtr t r ht
    have p2 := inv.donePtr u r' hu
    rw [p1] at p2
    injection p2
  · intro t r hd
    rw [inv.countPtr, inv.donePtr t r hd]
    rfl
  · intro hN hall
    obtain ⟨r, hr⟩ := hall ⟨0, hN⟩
    rw [inv.countPtr, inv.donePtr ⟨0, hN⟩ r hr]
    rfl

/-- Witness for C9: the spelled-out one-thread execution reaches its final
state, where the theorem reports one completed creation of a fully
constructed object. -/
theorem locked_first_access_race_witness :
    concFinal.createCount = 1 ∧ concFinal.ctorDone 0 = true := by
  have hreach : Conc.Reachable concFinal := by
    have h1 : Conc.Step (Conc.init 1) concS1 :=
      Conc.Step.acquire (Conc.init 1) 0 rfl rfl
    have h2 : Conc.Step concS1 concS2 :=
      Conc.Step.createAlloc concS1 0 (by decide) rfl
    have h3 : Conc.Step concS2 concS3 :=
      Conc.Step.createFinish concS2 0 0 (by decide)
    have h4 : Conc.Step concS3 concFinal :=
      Conc.Step.release concS3 0 0 (by decide)
    exact Relation.ReflTransGen.tail
      (Relation.ReflTransGen.tail
        (Relation.ReflTransGen.tail (Relation.ReflTransGen.single h1) h2) h3) h4
  have h := locked_first_access_race concFinal hreach
  exact ⟨h.2.2.2.2.2.1 0 0 (by decide), h.2.2.2.1 0 0 (by decide)⟩

end ConcurrencyTheorems
